import Mathlib

/-!
Verification of the dns-diagnostic repository.

The repository is a DNS diagnostic tool: a Next.js API layer (TypeScript,
under `ui/src/app/api` and `ui/src/lib`) that validates requests and invokes
a deterministic Python diagnostic engine (resolver client, snapshot
normalizer, email fingerprint matcher, decision engine, action-plan
builder).  The TypeScript layer is embedded here directly from the sources;
the Python engine modules (`dns_lookup.py`, `decision_engine.py`,
`action_plan_builder.py`) are not part of the available sources - only
their callers, tests and documentation are - so those components are
modelled from the specification, as marked in their doc comments.
-/

namespace DnsDiag

/-! ## Basic character and string helpers (structural, kernel-evaluable) -/

def isAlphaCh (c : Char) : Bool :=
  (('a' ≤ c) && (c ≤ 'z')) || (('A' ≤ c) && (c ≤ 'Z'))

def isDigitCh (c : Char) : Bool :=
  ('0' ≤ c) && (c ≤ '9')

def isAlnumCh (c : Char) : Bool :=
  isAlphaCh c || isDigitCh c

def isLabelCh (c : Char) : Bool :=
  isAlnumCh c || c = '-'

def toLowerCh (c : Char) : Char :=
  if (('A' ≤ c) && (c ≤ 'Z')) then Char.ofNat (c.toNat + 32) else c

def lowerList (l : List Char) : List Char :=
  l.map toLowerCh

/-- Split a character list on a separator character (keeps empty segments,
like JavaScript `split` / the regex alternation over labels). -/
def splitOnCh (sep : Char) : List Char → List (List Char)
  | [] => [[]]
  | c :: cs =>
    let r := splitOnCh sep cs
    if c = sep then
      [] :: r
    else
      match r with
      | [] => [[c]]
      | w :: ws => (c :: w) :: ws

def listStartsWith : List Char → List Char → Bool
  | [], _ => true
  | _ :: _, [] => false
  | a :: as, b :: bs => (a = b) && listStartsWith as bs

def strStartsWith (s pre : String) : Bool :=
  listStartsWith pre.toList s.toList

def strEndsWithCI (s suffix : String) : Bool :=
  listStartsWith (lowerList suffix.toList).reverse (lowerList s.toList).reverse

def strEqCI (s t : String) : Bool :=
  lowerList s.toList = lowerList t.toList

/-! ## Resolver client (modelled from the spec)

`src/dns_lookup.py` is referenced throughout the repository (the diagnose
routes spawn it, `part_008` quotes fragments of it in the security audit)
but the module itself is not among the available sources.  The definitions
below are modelled from the spec description of CNAME chain resolution
and per-type response truncation. -/

def CNAME_DEPTH_LIMIT : Nat := 5

def MAX_RECORDS_PER_TYPE : Nat := 100

structure CnameResult where
  chain : List String
  warning : Option String
deriving Repr, DecidableEq

/-- Modelled from the spec: `resolve_cname_chain` in `src/dns_lookup.py` is
missing from the sources (the security audit quotes only its depth guard).
Per the spec, CNAME resolution follows the chain manually up to depth 5;
reaching the limit without termination returns the partial chain and a
`loop_or_depth_limit` warning rather than raising an error.  The resolver
environment `env` maps a domain to its CNAME target, if any. -/
def resolve_cname_chain (env : String → Option String) (domain : String) (depth : Nat) :
    CnameResult :=
  if _h : CNAME_DEPTH_LIMIT ≤ depth then
    { chain := [], warning := some "loop_or_depth_limit" }
  else
    match env domain with
    | none => { chain := [], warning := none }
    | some target =>
      let r := resolve_cname_chain env target (depth + 1)
      { chain := target :: r.chain, warning := r.warning }
termination_by CNAME_DEPTH_LIMIT - depth
decreasing_by
  simp_wf
  omega

/-- The CNAME links reachable from a domain by following the resolver
environment for at most `n` steps: the reference chain that
`resolve_cname_chain` truncates at the depth limit.  It produces exactly
`n` entries precisely when the chain does not terminate within `n`
links. -/
def followChain (env : String → Option String) (domain : String) : Nat → List String
  | 0 => []
  | n + 1 =>
    match env domain with
    | none => []
    | some target => target :: followChain env target n

structure DnsRecord where
  host : String
  value : String
  ttl : Nat
deriving Repr, DecidableEq

structure TypeResult where
  records : List DnsRecord
  truncated : Bool
deriving Repr, DecidableEq

/-- Modelled from the spec: the per-record-type normalization step of
`src/dns_lookup.py` (missing from the sources; the security audit quotes
only `MAX_RECORDS_PER_TYPE = 100`).  Responses exceeding the limit are
truncated, and truncation sets the `truncated` flag rather than discarding
entries silently or raising. -/
def truncateRecords (raw : List DnsRecord) : TypeResult :=
  if MAX_RECORDS_PER_TYPE < raw.length then
    { records := raw.take MAX_RECORDS_PER_TYPE, truncated := true }
  else
    { records := raw, truncated := false }

/-- Modelled from the spec: assembly of the per-type answer lists of a
`DomainSnapshot`, applying the truncation cap to every record type. -/
def normalizeSnapshot (raw : String → List DnsRecord) : String → TypeResult :=
  fun rtype => truncateRecords (raw rtype)

/-! ## The hardened diagnose route (`ui/src/app/api/diagnose/route.ts`)

Embedded from the TypeScript source in `src/unnamed/part_000` (second
document): domain regex, SSRF block list, platform/audience/section
whitelists, the `--email-choice` forwarding rule, and the request pipeline
of its `POST` handler. -/

def MAX_DOMAIN_LENGTH : Nat := 253

/-- One DNS label of the route `DOMAIN_REGEX`
`[a-zA-Z0-9](?:[a-zA-Z0-9-]\x7b0,61\x7d[a-zA-Z0-9])?`: 1-63 characters,
alphanumeric at both ends, alphanumeric or hyphen in between. -/
def validLabel (w : List Char) : Bool :=
  match w with
  | [] => false
  | c :: cs =>
    isAlnumCh c && decide (w.length ≤ 63) && cs.all isLabelCh &&
      (match cs.reverse with
       | [] => true
       | lastc :: _ => isAlnumCh lastc)

/-- The route `DOMAIN_REGEX`: one or more dot-terminated labels followed
by an alphabetic TLD of length at least 2. -/
def domainRegexTest (s : String) : Bool :=
  match (splitOnCh '.' s.toList).reverse with
  | [] => false
  | tld :: labelsRev =>
    (!labelsRev.isEmpty) && labelsRev.all validLabel &&
      decide (2 ≤ tld.length) && tld.all isAlphaCh

/-- The route `BLOCKED_PATTERNS` (SSRF protection): internal TLD suffixes
and `localhost` case-insensitively, private IPv4 prefixes literally. -/
def isBlockedDomain (s : String) : Bool :=
  strEndsWithCI s ".local" || strEndsWithCI s ".internal" ||
  strEndsWithCI s ".corp" || strEndsWithCI s ".intranet" ||
  strEqCI s "localhost" ||
  strStartsWith s "127." || strStartsWith s "10." ||
  strStartsWith s "192.168." ||
  ["172.16.", "172.17.", "172.18.", "172.19.",
   "172.20.", "172.21.", "172.22.", "172.23.",
   "172.24.", "172.25.", "172.26.", "172.27.",
   "172.28.", "172.29.", "172.30.", "172.31."].any (fun p => strStartsWith s p)

def VALID_PLATFORMS : List String := ["attractwell", "aw", "getoiling", "go"]

def VALID_AUDIENCES : List String := ["customer", "support", "both"]

def VALID_SECTIONS : List String :=
  ["all", "web", "email", "A", "CNAME", "MX", "TXT", "SPF", "DMARC", "DKIM", "NS"]

/-- The route allowed `--email-choice` values
(`aw`, `go`, `external`, `none`). -/
def EMAIL_CHOICE_VALUES : List String := ["aw", "go", "external", "none"]

/-- The route `isValidDomain`: length cap, RFC-1035 regex, SSRF block
list. -/
def isValidDomain (domain : String) : Bool :=
  if MAX_DOMAIN_LENGTH < domain.length then false
  else if !domainRegexTest domain then false
  else if isBlockedDomain domain then false
  else true

/-- The route `sanitizeSections`: a non-array input yields `[]`; string
entries outside `VALID_SECTIONS` are dropped. -/
def sanitizeSections (sections : Option (List String)) : List String :=
  match sections with
  | none => []
  | some l => l.filter (fun s => VALID_SECTIONS.contains s)

/-- The route validated AI audience:
valid values pass through, anything else falls back to `customer`. -/
def validatedAudience (a : Option String) : String :=
  if VALID_AUDIENCES.contains (a.getD "") then a.getD "" else "customer"

/-- `--sections` arguments appended by the route: only when the sanitized
list is non-empty and does not contain `all`. -/
def sectionsArgs (sections : Option (List String)) : List String :=
  let v := sanitizeSections sections
  if !v.isEmpty && !v.contains "all" then "--sections" :: v else []

/-- `--email-choice` arguments appended by the route: only when the value
is present and in `EMAIL_CHOICE_VALUES`. -/
def emailChoiceArgs (c : Option String) : List String :=
  match c with
  | none => []
  | some s => if EMAIL_CHOICE_VALUES.contains s then ["--email-choice", s] else []

structure DiagnoseRequest where
  domain : String
  platform : String
  has_external_dependencies : Bool
  email_managed_by_platform : Bool
  email_provided_by_platform : Bool
  comfortable_editing_dns : Bool
  registrar_known : Bool
  delegate_dns_management : Bool
  email_choice : Option String
  sections : Option (List String)
  ai_audience : Option String
deriving Repr, DecidableEq

/-- The intent flag arguments appended by the route (each only when the
corresponding boolean is `true`). -/
def intentFlagArgs (req : DiagnoseRequest) : List String :=
  (if req.has_external_dependencies then ["--has-external"] else []) ++
  (if req.email_managed_by_platform then ["--email-managed"] else []) ++
  (if req.email_provided_by_platform then ["--email-provided-by-platform"] else []) ++
  (if req.comfortable_editing_dns then ["--comfortable"] else []) ++
  (if req.registrar_known then ["--registrar-known"] else []) ++
  (if req.delegate_dns_management then ["--delegate-dns"] else [])

/-- The full argument list the route passes to `execFile` for `main.py`. -/
def buildArgs (req : DiagnoseRequest) : List String :=
  ["--domain", req.domain, "--platform", req.platform, "--ai",
   "--ai-audience", validatedAudience req.ai_audience] ++
  sectionsArgs req.sections ++
  intentFlagArgs req ++
  emailChoiceArgs req.email_choice

/-- Outcome of the route `POST` handler: either an error response with an
HTTP status and message, or the invocation of the Python diagnostic engine
with the given argument list. -/
inductive DiagnoseOutcome where
  | reject (status : Nat) (error : String)
  | execute (args : List String)
deriving Repr, DecidableEq

/-- The validation pipeline of the diagnose route `POST` handler: rate
limit first (429), then domain validation (400), then platform whitelist
(400), then the `execFile` invocation. -/
def diagnosePost (rateAllowed : Bool) (req : DiagnoseRequest) : DiagnoseOutcome :=
  if !rateAllowed then
    DiagnoseOutcome.reject 429 "Rate limit exceeded"
  else if !isValidDomain req.domain then
    DiagnoseOutcome.reject 400 "Invalid domain format"
  else if !VALID_PLATFORMS.contains req.platform then
    DiagnoseOutcome.reject 400 "Invalid platform"
  else
    DiagnoseOutcome.execute (buildArgs req)

/-! ## Rate limiter (`ui/src/lib/rate-limiter.ts`)

Embedded from `src/src/lib/rate-limiter.ts`.  The in-memory
`rateLimitStore` map is modelled as a function from keys to optional
entries; times are in milliseconds, as in the source. -/

structure RateLimitEntry where
  count : Nat
  resetTime : Nat
deriving Repr, DecidableEq

structure RateLimitResult where
  allowed : Bool
  remaining : Nat
  resetTime : Nat
  retryAfter : Option Nat
deriving Repr, DecidableEq

inductive Endpoint where
  | diagnose
  | chat
  | defaultEp
deriving Repr, DecidableEq

/-- `RATE_LIMIT_CONFIG[endpoint].maxRequests`. -/
def maxRequests : Endpoint → Nat
  | Endpoint.diagnose => 10
  | Endpoint.chat => 30
  | Endpoint.defaultEp => 20

/-- `RATE_LIMIT_CONFIG[endpoint].windowMs` (one minute for every
endpoint). -/
def windowMs : Endpoint → Nat
  | _ => 60 * 1000

def endpointName : Endpoint → String
  | Endpoint.diagnose => "diagnose"
  | Endpoint.chat => "chat"
  | Endpoint.defaultEp => "default"

def RateLimitStore : Type := String → Option RateLimitEntry

def emptyRateStore : RateLimitStore := fun _ => none

/-- The store key `endpoint:identifier` used by `checkRateLimit`. -/
def rateKey (endpoint : Endpoint) (identifier : String) : String :=
  endpointName endpoint ++ ":" ++ identifier

/-- `checkRateLimit` from `rate-limiter.ts`: look the key up, reset the
entry when missing or past its `resetTime`, deny with `remaining = 0` and
`retryAfter = ceil((resetTime - now) / 1000)` when the count has reached
`maxRequests`, otherwise increment the count and allow with
`remaining = maxRequests - count`.  Returns the result together with the
updated store. -/
def checkRateLimit (store : RateLimitStore) (identifier : String)
    (endpoint : Endpoint) (now : Nat) : RateLimitResult × RateLimitStore :=
  let maxReq := maxRequests endpoint
  let key := rateKey endpoint identifier
  let entry : RateLimitEntry :=
    match store key with
    | some e =>
      if e.resetTime < now then { count := 0, resetTime := now + windowMs endpoint } else e
    | none => { count := 0, resetTime := now + windowMs endpoint }
  if maxReq ≤ entry.count then
    ({ allowed := false, remaining := 0, resetTime := entry.resetTime,
       retryAfter := some ((entry.resetTime - now + 999) / 1000) },
     fun k => if k = key then some entry else store k)
  else
    let entry2 : RateLimitEntry := { count := entry.count + 1, resetTime := entry.resetTime }
    ({ allowed := true, remaining := maxReq - entry2.count, resetTime := entry.resetTime,
       retryAfter := none },
     fun k => if k = key then some entry2 else store k)

/-- A sequence of `checkRateLimit` calls for one identifier and endpoint at
the given times, threading the store. -/
def runCalls (store : RateLimitStore) (identifier : String) (endpoint : Endpoint) :
    List Nat → List RateLimitResult × RateLimitStore
  | [] => ([], store)
  | t :: ts =>
    let p := checkRateLimit store identifier endpoint t
    let q := runCalls p.2 identifier endpoint ts
    (p.1 :: q.1, q.2)

def countAllowed (rs : List RateLimitResult) : Nat :=
  (rs.filter (fun r => r.allowed)).length

/-- Count stored for a key (`0` when no entry exists). -/
def entryCount (e : Option RateLimitEntry) : Nat :=
  match e with
  | some e => e.count
  | none => 0

/-! ## Chat session store (`ui/src/app/api/chat/route.ts`)

Embedded from the hardened chat route in `src/unnamed/part_000` (first
document): the module-level `conversations` map keeps one `Session` per
session id, storing the caller `diagnostic_data` verbatim; entries
expire after `SESSION_TTL_MS` of inactivity. -/

def SESSION_TTL_MS : Nat := 15 * 60 * 1000

structure Session where
  diagnostic_data : String
  history : List (String × String)
  audience : String
  created_at : Nat
  last_accessed : Nat
deriving Repr, DecidableEq

def SessionStore : Type := String → Option Session

def emptySessions : SessionStore := fun _ => none

/-- The `action = start` path of the chat route `POST` handler:
after the Python call succeeds it stores the request `diagnostic_data`
in the `conversations` map under the fresh session id. -/
def startSession (store : SessionStore) (sessionId : String) (diagnosticData : String)
    (audience : String) (now : Nat) : SessionStore :=
  fun k =>
    if k = sessionId then
      some { diagnostic_data := diagnosticData, history := [], audience := audience,
             created_at := now, last_accessed := now }
    else store k

inductive ChatLookup where
  | missing
  | expired
  | active (s : Session)
deriving Repr, DecidableEq

/-- The session lookup of the `action = chat` path: unknown ids are
rejected, entries idle longer than `SESSION_TTL_MS` are deleted and
rejected as expired, otherwise the stored session (with its retained
`diagnostic_data`) is used. -/
def chatSession (store : SessionStore) (sessionId : String) (now : Nat) :
    ChatLookup × SessionStore :=
  match store sessionId with
  | none => (ChatLookup.missing, store)
  | some s =>
    if SESSION_TTL_MS < now - s.last_accessed then
      (ChatLookup.expired, fun k => if k = sessionId then none else store k)
    else
      (ChatLookup.active s, store)

/-! ## Error responses of the spawn-based diagnose route
(`src/src/app/api/diagnose/route.ts`)

Embedded from the route that spawns the Python pipeline: the response body
sent when the virtual environment is missing, and the generic fallback
response that forwards `error.stack`. -/

structure ErrorResponse where
  error : String
  details : String
  hint : String
deriving Repr, DecidableEq

/-- The `pythonPath` the route computes:
`path.join` of the working directory with `.venv/bin/python3`. -/
def pythonPath (cwd : String) : String :=
  cwd ++ "/.venv/bin/python3"

/-- The 500 response body returned when `existsSync(pythonPath)` fails
(lines 62-72 of the route). -/
def venvMissingResponse (cwd : String) : ErrorResponse :=
  { error := "Python virtual environment not found",
    details := "Expected Python at: " ++ pythonPath cwd,
    hint := "Run: python3 -m venv .venv && source .venv/bin/activate && pip install -r requirements.txt" }

/-- The generic 500 fallback of the route catch block: `details` is the
raw `error.stack`. -/
def genericErrorResponse (message stack : String) : ErrorResponse :=
  { error := message,
    details := stack,
    hint := "Check the server console for more details" }

def isSpaceCh (c : Char) : Bool :=
  c = ' ' || c = '\t' || c = '\n' || c = '\r'

/-- Split a character list into maximal whitespace-free words. -/
def wordsAux : List Char → List Char → List (List Char)
  | [], acc => [acc.reverse]
  | c :: cs, acc =>
    if isSpaceCh c then acc.reverse :: wordsAux cs []
    else wordsAux cs (c :: acc)

/-- Whether the slash-separated segments of a word contain a path
fragment: some `/x/y` with both `x` and `y` non-empty (`x` strictly
between two slashes). -/
def segsHavePath : List (List Char) → Bool
  | x :: y :: rest => ((!x.isEmpty) && (!y.isEmpty)) || segsHavePath (y :: rest)
  | _ => false

/-- Whether a word matches the path pattern of the spec error sanitizer
(the audit regex replaces every occurrence of a slash, one or more
non-space characters, a slash and one or more non-space characters). -/
def isPathWord (w : List Char) : Bool :=
  match splitOnCh '/' w with
  | [] => false
  | _ :: segs => segsHavePath segs

/-- Whether a string contains a file-path-shaped token.  The spec requires
externally exposed error text to contain no file paths; this predicate is
the path pattern of the sanitizer. -/
def containsFilePath (s : String) : Bool :=
  (wordsAux s.toList []).any isPathWord

/-! ## Decision engine and action plan builder (modelled from the spec)

`logic/decision_engine.py` and `logic/action_plan_builder.py` are invoked
by the diagnose routes (`decision_engine.evaluate(domain, platform,
intent, email_state, snapshot)` and `builder.build_plan(decision,
snapshot, email_state)`) but the modules themselves are not among the
available sources.  The definitions below are modelled from the spec
§3 data model, §4.3 decision rules and §4.4 plan construction, with the
platform targets of the repository setup checklist. -/

structure DomainSnapshot where
  domain : String
  records : String → List DnsRecord
  truncatedFlags : String → Bool
  whoisRegistrar : Option String
  whoisNameservers : List String

structure EmailState where
  provider : String
  has_custom_email : Bool
  spf_present : Bool
  spf_valid : Bool
  dmarc_present : Bool
  dmarc_policy : String
  dkim_present : Bool
deriving Repr, DecidableEq

structure Intent where
  has_external_dependencies : Bool
  email_managed_by_platform : Bool
  comfortable_editing_dns : Bool
  registrar_known : Bool
  delegate_dns_management : Bool
  email_choice : String
  queried_sections : List String
deriving Repr, DecidableEq

inductive CompStatus where
  | matched
  | missing
  | conflict
  | different
  | external
  | info
deriving Repr, DecidableEq

/-- A comparison row.  Beyond the spec `\x7blabel, current, target,
status\x7d` the row carries the record type and host of the required
record it validates (the UI renders them through `label`); the plan
builder reads the required `\x7btype, host, value\x7d` of an `add_record`
action from these fields and from `target`. -/
structure Comparison where
  label : String
  rtype : String
  host : String
  current : String
  target : String
  status : CompStatus
deriving Repr, DecidableEq

inductive DecisionOption where
  | nameserver_delegation
  | record_level
deriving Repr, DecidableEq

structure Decision where
  option : DecisionOption
  comparisons : List Comparison
  delegate_access_recommended : Bool
deriving Repr, DecidableEq

structure PlatformConfig where
  nameservers : List String
  rootATarget : String
  subdomainTarget : String
deriving Repr, DecidableEq

/-- Modelled from the spec: the platform targets of `domain_rules.yaml`
(not among the available sources), with the values recorded in the
repository setup checklist: LiquidWeb nameservers, the shared root `A`
target, and per-platform subdomain CNAME targets. -/
def platformConfig (platform : String) : PlatformConfig :=
  if platform = "getoiling" || platform = "go" then
    { nameservers := ["ns.liquidweb.com", "ns1.liquidweb.com"],
      rootATarget := "199.189.226.101",
      subdomainTarget := "sites.getoiling.com" }
  else
    { nameservers := ["ns.liquidweb.com", "ns1.liquidweb.com"],
      rootATarget := "199.189.226.101",
      subdomainTarget := "sites.attractwell.com" }

/-- Order-independent, case-insensitive nameserver set comparison
(spec §4.3). -/
def nsSetMatches (current required : List String) : Bool :=
  required.all (fun r => current.any (fun c => strEqCI c r)) &&
  current.all (fun c => required.any (fun r => strEqCI c r))

/-- Modelled from the spec: third-party MX detection of the decision rule
(§4.3 with the checklist reading: MX records exist and the email is not
platform-managed). -/
def thirdPartyMXDetected (intent : Intent) (emailState : EmailState) : Bool :=
  emailState.has_custom_email && !intent.email_managed_by_platform

/-- A record-level comparison row: `missing` when no current record
exists, `matched` on an exact value match, `conflict` otherwise
(spec §4.3). -/
def compareRow (label rtype host : String) (current : Option String) (target : String) :
    Comparison :=
  match current with
  | none => { label := label, rtype := rtype, host := host,
              current := "", target := target, status := CompStatus.missing }
  | some v => { label := label, rtype := rtype, host := host,
                current := v, target := target,
                status := if v = target then CompStatus.matched else CompStatus.conflict }

/-- Modelled from the spec: `DecisionEngine.evaluate(domain, platform,
intent, email_state, snapshot)` of `logic/decision_engine.py`.  Strategy
selection per §4.3: `record_level` when the user declared external
dependencies or a third-party MX is detected, otherwise
`nameserver_delegation`; the nameserver path produces one summarizing NS
row, the record-level path one row for the root `A` record and one for
the `www` CNAME; `delegate_access_recommended` when the registrar is
unknown or the user is uncomfortable editing DNS. -/
def evaluate (domain platform : String) (intent : Intent) (emailState : EmailState)
    (snapshot : DomainSnapshot) : Decision :=
  let cfg := platformConfig platform
  let opt :=
    if intent.has_external_dependencies || thirdPartyMXDetected intent emailState then
      DecisionOption.record_level
    else
      DecisionOption.nameserver_delegation
  let comps :=
    match opt with
    | DecisionOption.nameserver_delegation =>
      let curNS := (snapshot.records "NS").map (fun r => r.value)
      [{ label := "Nameservers", rtype := "NS", host := "@",
         current := String.intercalate ", " curNS,
         target := String.intercalate ", " cfg.nameservers,
         status :=
           if curNS.isEmpty then CompStatus.missing
           else if nsSetMatches curNS cfg.nameservers then CompStatus.matched
           else CompStatus.conflict }]
    | DecisionOption.record_level =>
      let curA := ((snapshot.records "A").filter (fun r => r.host = "@")).head?
      let curWww := ((snapshot.records "CNAME").filter (fun r => r.host = "www")).head?
      [compareRow "A (@)" "A" "@" (curA.map (fun r => r.value)) cfg.rootATarget,
       compareRow "CNAME (www)" "CNAME" "www" (curWww.map (fun r => r.value)) domain]
  { option := opt,
    comparisons := comps,
    delegate_access_recommended := !intent.registrar_known || !intent.comfortable_editing_dns }

inductive Action where
  | add_record (rtype host value : String)
  | change_nameservers (values : List String)
deriving Repr, DecidableEq

structure ActionPlan where
  actions : List Action
  is_completed : Bool
  status_message : String
  warnings : List String
deriving Repr, DecidableEq

/-- Whether a comparison row requires remediation (status `missing` or
`conflict`). -/
def rowPending (c : Comparison) : Bool :=
  c.status = CompStatus.missing || c.status = CompStatus.conflict

/-- Modelled from the spec: `ActionPlanBuilder.build_plan(decision,
snapshot, email_state)` of `logic/action_plan_builder.py` (§4.4).  The
nameserver path collapses any mismatch into the single
`change_nameservers` action carrying the full required set; the
record-level path emits one `add_record` per `missing`/`conflict` row
with the row required type, host and value; `is_completed` iff no row
remains pending; the status message distinguishes all-set, action
required and conflicts blocking; a third-party MX under the record-level
strategy yields the non-blocking do-not-alter-MX warning. -/
def build_plan (cfg : PlatformConfig) (decision : Decision)
    (emailState : EmailState) : ActionPlan :=
  let pending := decision.comparisons.filter rowPending
  let actions :=
    match decision.option with
    | DecisionOption.nameserver_delegation =>
      if pending.isEmpty then [] else [Action.change_nameservers cfg.nameservers]
    | DecisionOption.record_level =>
      pending.map (fun c => Action.add_record c.rtype c.host c.target)
  let hasConflict := decision.comparisons.any (fun c => c.status = CompStatus.conflict)
  { actions := actions,
    is_completed := pending.isEmpty,
    status_message :=
      if pending.isEmpty then "Your domain is fully configured. All set."
      else if hasConflict then "Conflicting DNS records are blocking progress."
      else "Action required: add the missing DNS records.",
    warnings :=
      if decision.option = DecisionOption.record_level && emailState.has_custom_email then
        ["Third-party email detected: do not alter MX records."]
      else [] }

/-! ## Auxiliary views and concrete sample inputs for the witnesses -/

/-- HTTP status of a diagnose outcome (`none` when the Python engine was
invoked instead of an error response being returned). -/
def outcomeStatus : DiagnoseOutcome → Option Nat
  | DiagnoseOutcome.reject s _ => some s
  | DiagnoseOutcome.execute _ => none

def sampleRequest : DiagnoseRequest :=
  { domain := "localhost", platform := "attractwell",
    has_external_dependencies := false, email_managed_by_platform := false,
    email_provided_by_platform := false, comfortable_editing_dns := true,
    registrar_known := true, delegate_dns_management := false,
    email_choice := none, sections := none, ai_audience := none }

def sampleRawRecords : String → List DnsRecord :=
  fun _ => List.replicate 101 { host := "@", value := "198.51.100.7", ttl := 300 }

def sampleSnapshot : DomainSnapshot :=
  { domain := "example.com",
    records := fun t =>
      if t = "MX" then [{ host := "@", value := "aspmx.l.google.com", ttl := 3600 }] else [],
    truncatedFlags := fun _ => false,
    whoisRegistrar := none,
    whoisNameservers := [] }

def sampleIntent : Intent :=
  { has_external_dependencies := false, email_managed_by_platform := false,
    comfortable_editing_dns := true, registrar_known := true,
    delegate_dns_management := false, email_choice := "none",
    queried_sections := ["all"] }

def sampleEmailState : EmailState :=
  { provider := "google", has_custom_email := true, spf_present := true,
    spf_valid := true, dmarc_present := true, dmarc_policy := "reject",
    dkim_present := false }

def sampleDecision : Decision :=
  { option := DecisionOption.record_level,
    comparisons :=
      [{ label := "A (@)", rtype := "A", host := "@", current := "203.0.113.9",
         target := "199.189.226.101", status := CompStatus.conflict },
       { label := "CNAME (www)", rtype := "CNAME", host := "www", current := "",
         target := "example.com", status := CompStatus.missing }],
    delegate_access_recommended := false }

/-- Rate-limiter store after ten diagnose calls from one client at time 0
(the window then resets at 60000). -/
def cexStoreAfterTen : RateLimitStore :=
  (runCalls emptyRateStore "203.0.113.5" Endpoint.diagnose (List.replicate 10 0)).2

/-- The session the chat route `start` action stores: the caller
diagnostic data, empty history, the chosen audience, both timestamps set
to the call time. -/
def freshSession (dd aud : String) (t : Nat) : Session :=
  { diagnostic_data := dd, history := [], audience := aud,
    created_at := t, last_accessed := t }

/-! ## Theorems -/

theorem followChain_length_le (env : String → Option String) :
    ∀ (n : Nat) (domain : String), (followChain env domain n).length ≤ n := by
  intro n
  induction n with
  | zero =>
    intro domain
    simp [followChain]
  | succ m ih =>
    intro domain
    cases henv : env domain with
    | none => simp [followChain, henv]
    | some target =>
      simp only [followChain, henv, List.length_cons]
      have := ih target
      omega

/-- Full characterization of `resolve_cname_chain` against the reference
chain: the returned chain is `followChain` cut at the remaining depth
budget, and the warning is set exactly when the chain fills that budget,
i.e. when resolution reaches the depth limit without terminating. -/
theorem resolve_cname_chain_spec (env : String → Option String) :
    ∀ (fuel : Nat) (domain : String) (depth : Nat),
      CNAME_DEPTH_LIMIT - depth = fuel →
      resolve_cname_chain env domain depth =
        { chain := followChain env domain fuel,
          warning := if (followChain env domain fuel).length = fuel
            then some "loop_or_depth_limit" else none } := by
  intro fuel
  induction fuel with
  | zero =>
    intro domain depth h
    have hd : CNAME_DEPTH_LIMIT ≤ depth := by omega
    rw [resolve_cname_chain]
    simp [hd, followChain]
  | succ n ih =>
    intro domain depth h
    have hd : ¬ CNAME_DEPTH_LIMIT ≤ depth := by omega
    rw [resolve_cname_chain]
    cases henv : env domain with
    | none =>
      simp [hd, henv, followChain]
    | some target =>
      have ht := ih target (depth + 1) (by omega)
      simp only [hd, dif_neg, not_false_iff, henv, ht, followChain]
      by_cases hl : (followChain env target n).length = n
      · simp [hl]
      · simp only [List.length_cons]
        have hl2 : ¬ (followChain env target n).length + 1 = n + 1 := by omega
        simp [hl, hl2]

/-- C3: for every resolver environment and domain, CNAME chain resolution
terminates (it is a total function), never follows more than 5 links, and
always returns the partial chain of the links it followed; its warning is
either absent or the `loop_or_depth_limit` marker, returned as a value
and never raised; and the warning is set precisely when the limit is
reached - whenever the chain does not terminate within 5 links (5 links
all resolve) the result carries the 5-link partial chain together with
the `loop_or_depth_limit` warning, and whenever resolution terminates
earlier no warning is set. -/
theorem cname_resolution_bounded (env : String → Option String) (domain : String) :
    (resolve_cname_chain env domain 0).chain.length ≤ 5 ∧
    ((resolve_cname_chain env domain 0).warning = none ∨
     (resolve_cname_chain env domain 0).warning = some "loop_or_depth_limit") ∧
    (resolve_cname_chain env domain 0).chain = followChain env domain 5 ∧
    ((followChain env domain 5).length = 5 →
      (resolve_cname_chain env domain 0).warning = some "loop_or_depth_limit") ∧
    ((followChain env domain 5).length < 5 →
      (resolve_cname_chain env domain 0).warning = none) := by
  have hspec := resolve_cname_chain_spec env 5 domain 0 rfl
  rw [hspec]
  refine ⟨?_, ?_, rfl, ?_, ?_⟩
  · exact followChain_length_le env 5 domain
  · by_cases hl : (followChain env domain 5).length = 5
    · right
      simp [hl]
    · left
      simp [hl]
  · intro hl
    simp [hl]
  · intro hl
    have hne : ¬ (followChain env domain 5).length = 5 := by omega
    simp [hne]

theorem cname_resolution_bounded_witness :
    (followChain (fun d => some d) "loop.example.com" 5).length = 5 ∧
    (resolve_cname_chain (fun d => some d) "loop.example.com" 0).warning =
      some "loop_or_depth_limit" :=
  ⟨by decide,
   (cname_resolution_bounded (fun d => some d) "loop.example.com").2.2.2.1 (by decide)⟩

/-- C4: for every record type of a normalized snapshot, the returned
record sequence has length at most 100; a raw answer longer than 100
entries is truncated to its first 100 entries with `truncated = true`,
and a raw answer within the cap is returned whole with
`truncated = false`. -/
theorem records_truncation (raw : String → List DnsRecord) (rtype : String) :
    (normalizeSnapshot raw rtype).records.length ≤ MAX_RECORDS_PER_TYPE ∧
    (MAX_RECORDS_PER_TYPE < (raw rtype).length →
      (normalizeSnapshot raw rtype).truncated = true ∧
      (normalizeSnapshot raw rtype).records = (raw rtype).take MAX_RECORDS_PER_TYPE) ∧
    ((raw rtype).length ≤ MAX_RECORDS_PER_TYPE →
      (normalizeSnapshot raw rtype).truncated = false ∧
      (normalizeSnapshot raw rtype).records = raw rtype) := by
  unfold normalizeSnapshot truncateRecords
  by_cases h : MAX_RECORDS_PER_TYPE < (raw rtype).length
  · refine ⟨?_, fun _ => ⟨by simp [h], by simp [h]⟩, fun hle => absurd h (by omega)⟩
    simp [h, List.length_take]
  · refine ⟨?_, fun hgt => absurd hgt h, fun _ => by simp [h]⟩
    simp only [h, if_neg, ite_false]
    omega

theorem records_truncation_witness :
    (normalizeSnapshot sampleRawRecords "A").truncated = true ∧
    (normalizeSnapshot sampleRawRecords "A").records.length ≤ MAX_RECORDS_PER_TYPE :=
  ⟨((records_truncation sampleRawRecords "A").2.1 (by simp [sampleRawRecords,
      MAX_RECORDS_PER_TYPE])).1,
   (records_truncation sampleRawRecords "A").1⟩

/-- C5: when the rate limiter admits the request, a diagnose request whose
domain exceeds 253 characters, fails the RFC-1035 regex, matches an
internal/private-range pattern, or whose platform is outside the supported
whitelist, is answered with a 400 error response - in particular the
Python diagnostic engine is never invoked (`outcomeStatus` is `none`
exactly on the execution branch). -/
theorem invalid_request_rejected (req : DiagnoseRequest)
    (h : MAX_DOMAIN_LENGTH < req.domain.length ∨ domainRegexTest req.domain = false ∨
         isBlockedDomain req.domain = true ∨ VALID_PLATFORMS.contains req.platform = false) :
    outcomeStatus (diagnosePost true req) = some 400 := by
  unfold diagnosePost
  by_cases hv : isValidDomain req.domain
  · have hp : VALID_PLATFORMS.contains req.platform = false := by
      rcases h with h | h | h | h
      · exact absurd hv (by simp [isValidDomain, h])
      · exact absurd hv (by simp [isValidDomain, h])
      · exact absurd hv (by simp [isValidDomain, h])
      · exact h
    have hp' : req.platform ∉ VALID_PLATFORMS := by simpa using hp
    simp [hv, hp', outcomeStatus]
  · simp [hv, outcomeStatus]

theorem invalid_request_rejected_witness :
    outcomeStatus (diagnosePost true sampleRequest) = some 400 :=
  invalid_request_rejected sampleRequest (by decide)

/-- C6: the spawn-based diagnose route externally returned error bodies
are not sanitized: when the Python virtual environment is missing the
`details` field contains the absolute interpreter path, and the generic
fallback forwards `error.stack` verbatim, exceeding the 200-character
bound the sanitizer is supposed to enforce. -/
theorem error_details_leak_path :
    containsFilePath (venvMissingResponse "/srv/dns-diagnostic").details = true ∧
    200 < (genericErrorResponse "Diagnosis failed"
            (String.mk (List.replicate 300 'a'))).details.length := by
  constructor
  · decide
  · have h : (genericErrorResponse "Diagnosis failed"
        (String.mk (List.replicate 300 'a'))).details.length =
        (List.replicate 300 'a').length := rfl
    rw [h, List.length_replicate]
    omega

/-- C7 counterexample: the route forwards `email_choice = "aw"`, a value
outside the claimed enumeration (platform, external, none), and it does
not forward the value `"platform"` itself. -/
theorem email_choice_cex :
    emailChoiceArgs (some "aw") = ["--email-choice", "aw"] ∧
    (["platform", "external", "none"].contains "aw") = false ∧
    emailChoiceArgs (some "platform") = [] := by
  decide

/-- C7 amended: the `email_choice` values forwarded to the diagnostic
engine are exactly `aw`, `go`, `external` and `none`; any other value
(including `platform`), or an absent field, forwards nothing. -/
theorem email_choice_enumeration (c : String) :
    (EMAIL_CHOICE_VALUES.contains c = false → emailChoiceArgs (some c) = []) ∧
    (EMAIL_CHOICE_VALUES.contains c = true →
      emailChoiceArgs (some c) = ["--email-choice", c]) ∧
    emailChoiceArgs none = [] := by
  refine ⟨fun h => ?_, fun h => ?_, rfl⟩
  · have h' : c ∉ EMAIL_CHOICE_VALUES := by simpa using h
    simp [emailChoiceArgs, h']
  · have h' : c ∈ EMAIL_CHOICE_VALUES := by simpa using h
    simp [emailChoiceArgs, h']

theorem email_choice_enumeration_witness :
    EMAIL_CHOICE_VALUES.contains "gmail" = false ∧ emailChoiceArgs (some "gmail") = [] :=
  ⟨by decide, (email_choice_enumeration "gmail").1 (by decide)⟩

/-- C9: the sections input is a pure filter: every sanitized entry belongs
to the closed valid set; invalid entries are dropped without error (the
function is total); a selection containing `all`, a selection that
sanitizes to nothing, and an absent selection all forward no
`--sections` filter, so that all record types are queried; and whenever a
filter is forwarded it is exactly the sanitized list. -/
theorem sections_filter (s : List String) :
    ((sanitizeSections (some s)).all (fun x => VALID_SECTIONS.contains x) = true) ∧
    (s.contains "all" = true → sectionsArgs (some s) = []) ∧
    ((sanitizeSections (some s)).isEmpty = true → sectionsArgs (some s) = []) ∧
    sanitizeSections none = [] ∧
    sectionsArgs none = [] ∧
    (sectionsArgs (some s) = [] ∨
     sectionsArgs (some s) = "--sections" :: sanitizeSections (some s)) := by
  refine ⟨?_, fun hall => ?_, fun hempty => ?_, rfl, rfl, ?_⟩
  · simp only [sanitizeSections, List.all_eq_true]
    intro x hx
    exact (List.mem_filter.mp hx).2
  · have hmem : "all" ∈ sanitizeSections (some s) := by
      simp only [sanitizeSections]
      exact List.mem_filter.mpr ⟨by simpa using hall, by decide⟩
    simp only [sectionsArgs]
    simp [hmem]
  · simp [sectionsArgs, hempty]
  · by_cases h1 : sanitizeSections (some s) = []
    · left
      simp [sectionsArgs, h1]
    · by_cases h2 : "all" ∈ sanitizeSections (some s)
      · left
        simp [sectionsArgs, h2]
      · right
        simp [sectionsArgs, h1, h2]

theorem sections_filter_witness :
    ((sanitizeSections (some ["A", "bogus", "all"])).all
      (fun x => VALID_SECTIONS.contains x) = true) ∧
    sectionsArgs (some ["A", "bogus", "all"]) = [] :=
  ⟨(sections_filter ["A", "bogus", "all"]).1,
   (sections_filter ["A", "bogus", "all"]).2.1 (by decide)⟩

/-- C1: for every built plan, under the record-level option the actions
are exactly one `add_record` per comparison row with status `missing` or
`conflict`, each carrying the row required type, host and value; under
the nameserver option any number of pending rows collapses into exactly
one `change_nameservers` action carrying the full required nameserver
set, and no action is emitted when nothing is pending. -/
theorem plan_correspondence (cfg : PlatformConfig) (d : Decision) (es : EmailState) :
    (d.option = DecisionOption.record_level →
      (build_plan cfg d es).actions.length = (d.comparisons.filter rowPending).length ∧
      (build_plan cfg d es).actions =
        (d.comparisons.filter rowPending).map
          (fun c => Action.add_record c.rtype c.host c.target) ∧
      ∀ a ∈ (build_plan cfg d es).actions, ∃ c ∈ d.comparisons,
        rowPending c = true ∧ a = Action.add_record c.rtype c.host c.target) ∧
    (d.option = DecisionOption.nameserver_delegation →
      ((d.comparisons.filter rowPending ≠ []) →
        (build_plan cfg d es).actions = [Action.change_nameservers cfg.nameservers]) ∧
      ((d.comparisons.filter rowPending = []) →
        (build_plan cfg d es).actions = [])) := by
  constructor
  · intro hopt
    refine ⟨?_, ?_, ?_⟩
    · simp [build_plan, hopt]
    · simp [build_plan, hopt]
    · intro a ha
      simp only [build_plan, hopt] at ha
      simp only [List.mem_map] at ha
      obtain ⟨c, hc, hac⟩ := ha
      exact ⟨c, (List.mem_filter.mp hc).1, (List.mem_filter.mp hc).2, hac.symm⟩
  · intro hopt
    constructor
    · intro hne
      have hne' : (d.comparisons.filter rowPending).isEmpty = false := by
        simpa [List.isEmpty_iff] using hne
      simp [build_plan, hopt, hne']
    · intro heq
      simp [build_plan, hopt, heq]

theorem plan_correspondence_witness :
    (build_plan (platformConfig "attractwell") sampleDecision sampleEmailState).actions =
      (sampleDecision.comparisons.filter rowPending).map
        (fun c => Action.add_record c.rtype c.host c.target) :=
  ((plan_correspondence (platformConfig "attractwell") sampleDecision
      sampleEmailState).1 rfl).2.1

/-- C2: the decision evaluation is deterministic - for identical
snapshot, email state, intent and platform inputs, two runs of `evaluate`
return the same `option` and the same `comparisons` list.  `evaluate` is
a pure function of these inputs, so equal inputs yield equal outputs. -/
theorem evaluate_deterministic (d1 d2 p1 p2 : String) (i1 i2 : Intent)
    (e1 e2 : EmailState) (s1 s2 : DomainSnapshot)
    (hd : d1 = d2) (hp : p1 = p2) (hi : i1 = i2) (he : e1 = e2) (hs : s1 = s2) :
    (evaluate d1 p1 i1 e1 s1).option = (evaluate d2 p2 i2 e2 s2).option ∧
    (evaluate d1 p1 i1 e1 s1).comparisons = (evaluate d2 p2 i2 e2 s2).comparisons := by
  subst hd
  subst hp
  subst hi
  subst he
  subst hs
  exact ⟨rfl, rfl⟩

theorem evaluate_deterministic_witness :
    (evaluate "example.com" "attractwell" sampleIntent sampleEmailState
        sampleSnapshot).option =
      (evaluate "example.com" "attractwell" sampleIntent sampleEmailState
        sampleSnapshot).option ∧
    (evaluate "example.com" "attractwell" sampleIntent sampleEmailState
        sampleSnapshot).comparisons =
      (evaluate "example.com" "attractwell" sampleIntent sampleEmailState
        sampleSnapshot).comparisons :=
  evaluate_deterministic "example.com" "example.com" "attractwell" "attractwell"
    sampleIntent sampleIntent sampleEmailState sampleEmailState
    sampleSnapshot sampleSnapshot rfl rfl rfl rfl rfl

/-- C8 counterexample: the chat route session store retains the
diagnostic data (which carries the DNS snapshot) after the `start` call
returns - a later `chat` invocation, one minute afterwards, still reads
the very data stored by the first invocation, so the system does persist
diagnosis-related data across invocations. -/
theorem snapshot_retained_cex :
    (startSession emptySessions "f00d" "dns snapshot of example.com" "customer" 0) "f00d" =
      some (freshSession "dns snapshot of example.com" "customer" 0) ∧
    (chatSession (startSession emptySessions "f00d" "dns snapshot of example.com"
        "customer" 0) "f00d" 60000).1 =
      ChatLookup.active (freshSession "dns snapshot of example.com" "customer" 0) := by
  constructor
  · rfl
  · rfl

/-- C8 amended: the diagnostic pipeline itself holds no state, but the
chat session layer stores the caller diagnostic data in its in-memory
map when a conversation starts, keeps it readable by later chat calls
while the idle time stays within `SESSION_TTL_MS` (15 minutes), and only
once that TTL is exceeded refuses access and deletes the entry. -/
theorem session_retention (store : SessionStore) (sid dd aud : String) (t0 t1 : Nat) :
    (startSession store sid dd aud t0) sid = some (freshSession dd aud t0) ∧
    (t1 - t0 ≤ SESSION_TTL_MS →
      (chatSession (startSession store sid dd aud t0) sid t1).1 =
        ChatLookup.active (freshSession dd aud t0)) ∧
    (SESSION_TTL_MS < t1 - t0 →
      (chatSession (startSession store sid dd aud t0) sid t1).1 = ChatLookup.expired ∧
      (chatSession (startSession store sid dd aud t0) sid t1).2 sid = none) := by
  refine ⟨by simp [startSession, freshSession], fun hle => ?_, fun hgt => ?_⟩
  · have hcond : ¬ SESSION_TTL_MS < t1 - t0 := by omega
    simp [chatSession, startSession, freshSession, hcond]
  · constructor
    · simp [chatSession, startSession, hgt]
    · simp [chatSession, startSession, hgt]

theorem session_retention_witness :
    (chatSession (startSession emptySessions "beef" "diagnostic payload" "support" 0)
        "beef" 1000).1 =
      ChatLookup.active (freshSession "diagnostic payload" "support" 0) :=
  (session_retention emptySessions "beef" "diagnostic payload" "support" 0 1000).2.1
    (by decide)

theorem maxRequests_pos (ep : Endpoint) : 0 < maxRequests ep := by
  cases ep <;> simp [maxRequests]

theorem countAllowed_cons (r : RateLimitResult) (rs : List RateLimitResult) :
    countAllowed (r :: rs) = (if r.allowed then 1 else 0) + countAllowed rs := by
  cases h : r.allowed
  · simp [countAllowed, List.filter_cons, h]
  · simp [countAllowed, List.filter_cons, h]
    omega

/-- `checkRateLimit` on a missing or expired entry: the window resets and
the call is allowed with count 1. -/
theorem check_reset_allowed (store : RateLimitStore) (id : String) (ep : Endpoint)
    (now : Nat)
    (h : store (rateKey ep id) = none ∨
         ∃ e, store (rateKey ep id) = some e ∧ e.resetTime < now) :
    checkRateLimit store id ep now =
      ({ allowed := true, remaining := maxRequests ep - 1,
         resetTime := now + windowMs ep, retryAfter := none },
       fun k => if k = rateKey ep id then
          some { count := 1, resetTime := now + windowMs ep } else store k) := by
  have hmax : ¬ maxRequests ep ≤ 0 := by
    have := maxRequests_pos ep
    omega
  rcases h with h | ⟨e, he, hlt⟩
  · simp [checkRateLimit, h, hmax]
  · simp [checkRateLimit, he, hlt, hmax]

/-- `checkRateLimit` on a live entry (window not yet expired): denied with
zero remaining and the ceiling retry delay once the count has reached the
maximum, otherwise allowed with the count incremented. -/
theorem check_live_entry (store : RateLimitStore) (id : String) (ep : Endpoint)
    (now : Nat) (e : RateLimitEntry)
    (hst : store (rateKey ep id) = some e) (hwin : ¬ e.resetTime < now) :
    (maxRequests ep ≤ e.count →
      checkRateLimit store id ep now =
        ({ allowed := false, remaining := 0, resetTime := e.resetTime,
           retryAfter := some ((e.resetTime - now + 999) / 1000) },
         fun k => if k = rateKey ep id then some e else store k)) ∧
    (e.count < maxRequests ep →
      checkRateLimit store id ep now =
        ({ allowed := true, remaining := maxRequests ep - (e.count + 1),
           resetTime := e.resetTime, retryAfter := none },
         fun k => if k = rateKey ep id then
            some { count := e.count + 1, resetTime := e.resetTime } else store k)) := by
  constructor
  · intro h
    simp [checkRateLimit, hst, hwin, h]
  · intro h
    have h2 : ¬ maxRequests ep ≤ e.count := by omega
    simp [checkRateLimit, hst, hwin, h2]

/-- In a run of calls against a live entry whose window never expires, the
number of allowed results cannot exceed the headroom left in the
window. -/
theorem runCalls_allowed_bound (id : String) (ep : Endpoint) :
    ∀ (ts : List Nat) (store : RateLimitStore) (e : RateLimitEntry),
      store (rateKey ep id) = some e →
      e.count ≤ maxRequests ep →
      (∀ t ∈ ts, t ≤ e.resetTime) →
      countAllowed (runCalls store id ep ts).1 + e.count ≤ maxRequests ep := by
  intro ts
  induction ts with
  | nil =>
    intro store e hst hcnt htimes
    simpa [runCalls, countAllowed] using hcnt
  | cons t ts ih =>
    intro store e hst hcnt htimes
    have ht : t ≤ e.resetTime := htimes t (List.mem_cons_self t ts)
    have hwin : ¬ e.resetTime < t := by omega
    rcases Nat.lt_or_ge e.count (maxRequests ep) with hlt | hge
    · have heq := (check_live_entry store id ep t e hst hwin).2 hlt
      have hrec : countAllowed (runCalls (checkRateLimit store id ep t).2 id ep ts).1 +
          (e.count + 1) ≤ maxRequests ep :=
        ih (checkRateLimit store id ep t).2
          { count := e.count + 1, resetTime := e.resetTime }
          (by rw [heq]; simp)
          (by simpa using hlt)
          (fun u hu => htimes u (List.mem_cons_of_mem t hu))
      simp only [runCalls, countAllowed_cons]
      have hall : (checkRateLimit store id ep t).1.allowed = true := by
        rw [heq]
      rw [hall]
      simp only [if_true]
      omega
    · have heq := (check_live_entry store id ep t e hst hwin).1 (by omega)
      have hrec : countAllowed (runCalls (checkRateLimit store id ep t).2 id ep ts).1 +
          e.count ≤ maxRequests ep :=
        ih (checkRateLimit store id ep t).2 e
          (by rw [heq]; simp)
          hcnt
          (fun u hu => htimes u (List.mem_cons_of_mem t hu))
      simp only [runCalls, countAllowed_cons]
      have hall : (checkRateLimit store id ep t).1.allowed = false := by
        rw [heq]
      rw [hall]
      simp only [Bool.false_eq_true, if_false]
      omega

/-- Starting from an empty store, a first call opens a window and at most
`maxRequests` calls are allowed while all later calls stay within it. -/
theorem fresh_window_bound (id : String) (ep : Endpoint) (t0 : Nat) (ts : List Nat)
    (h : ∀ t ∈ ts, t ≤ t0 + windowMs ep) :
    countAllowed (runCalls emptyRateStore id ep (t0 :: ts)).1 ≤ maxRequests ep := by
  have heq := check_reset_allowed emptyRateStore id ep t0 (Or.inl rfl)
  have hb : countAllowed (runCalls (checkRateLimit emptyRateStore id ep t0).2 id ep ts).1 +
      1 ≤ maxRequests ep :=
    runCalls_allowed_bound id ep ts (checkRateLimit emptyRateStore id ep t0).2
      { count := 1, resetTime := t0 + windowMs ep }
      (by rw [heq]; simp)
      (maxRequests_pos ep)
      (fun u hu => h u hu)
  simp only [runCalls, countAllowed_cons]
  have hall : (checkRateLimit emptyRateStore id ep t0).1.allowed = true := by
    rw [heq]
  rw [hall]
  simp only [if_true]
  omega

/-- C10 counterexample: ten diagnose calls from one client at time 0 fill
the window (`resetTime = 60000`); an eleventh call at exactly
`now = 60000` - when the stored `resetTime` has not yet passed, as the
code itself treats the window as live and still denies the call - is
denied with `retryAfter = 0`, which is not positive; one millisecond
later the window has passed and the next call is allowed again. -/
theorem rate_retry_cex :
    (checkRateLimit cexStoreAfterTen "203.0.113.5" Endpoint.diagnose 60000).1.allowed
      = false ∧
    (checkRateLimit cexStoreAfterTen "203.0.113.5" Endpoint.diagnose 60000).1.retryAfter
      = some 0 ∧
    (checkRateLimit cexStoreAfterTen "203.0.113.5" Endpoint.diagnose 60000).1.resetTime
      = 60000 ∧
    (checkRateLimit
        (checkRateLimit cexStoreAfterTen "203.0.113.5" Endpoint.diagnose 60000).2
        "203.0.113.5" Endpoint.diagnose 60001).1.allowed = true := by
  exact ⟨rfl, rfl, rfl, rfl⟩

/-- C10 amended: `checkRateLimit` keeps the stored count at or below the
configured maximum (10 for diagnose, 30 for chat, 20 default); in every
result `remaining` plus the stored count equals the maximum (so
`remaining` is never negative); a denied call has `remaining = 0`, occurs
only while `now` has not passed the window `resetTime`, and carries a
nonnegative `retryAfter` that is positive whenever `now` is strictly
before `resetTime` (at `now = resetTime` exactly it is 0); once the
stored `resetTime` has passed the next call is allowed again; and from an
empty store at most the configured maximum of calls is allowed within a
single window. -/
theorem rate_limit_behavior (store : RateLimitStore) (id : String) (ep : Endpoint)
    (now : Nat) (hinv : entryCount (store (rateKey ep id)) ≤ maxRequests ep) :
    (maxRequests Endpoint.diagnose = 10 ∧ maxRequests Endpoint.chat = 30 ∧
      maxRequests Endpoint.defaultEp = 20) ∧
    entryCount ((checkRateLimit store id ep now).2 (rateKey ep id)) ≤ maxRequests ep ∧
    (checkRateLimit store id ep now).1.remaining +
      entryCount ((checkRateLimit store id ep now).2 (rateKey ep id)) = maxRequests ep ∧
    ((checkRateLimit store id ep now).1.allowed = false →
      (checkRateLimit store id ep now).1.remaining = 0 ∧
      now ≤ (checkRateLimit store id ep now).1.resetTime ∧
      ∃ v, (checkRateLimit store id ep now).1.retryAfter = some v ∧
        (now < (checkRateLimit store id ep now).1.resetTime → 0 < v)) ∧
    (∀ e, store (rateKey ep id) = some e → e.resetTime < now →
      (checkRateLimit store id ep now).1.allowed = true) ∧
    (∀ (t0 : Nat) (ts : List Nat), (∀ t ∈ ts, t ≤ t0 + windowMs ep) →
      countAllowed (runCalls emptyRateStore id ep (t0 :: ts)).1 ≤ maxRequests ep) := by
  have hmaxpos := maxRequests_pos ep
  refine ⟨⟨rfl, rfl, rfl⟩, ?_⟩
  have hmain :
      entryCount ((checkRateLimit store id ep now).2 (rateKey ep id)) ≤ maxRequests ep ∧
      (checkRateLimit store id ep now).1.remaining +
        entryCount ((checkRateLimit store id ep now).2 (rateKey ep id)) = maxRequests ep ∧
      ((checkRateLimit store id ep now).1.allowed = false →
        (checkRateLimit store id ep now).1.remaining = 0 ∧
        now ≤ (checkRateLimit store id ep now).1.resetTime ∧
        ∃ v, (checkRateLimit store id ep now).1.retryAfter = some v ∧
          (now < (checkRateLimit store id ep now).1.resetTime → 0 < v)) ∧
      (∀ e, store (rateKey ep id) = some e → e.resetTime < now →
        (checkRateLimit store id ep now).1.allowed = true) := by
    cases hs : store (rateKey ep id) with
    | none =>
      have heq := check_reset_allowed store id ep now (Or.inl hs)
      rw [heq]
      refine ⟨by simp [entryCount]; omega, by simp [entryCount]; omega, ?_, ?_⟩
      · intro hfalse
        simp at hfalse
      · intro e he
        exact Option.noConfusion he
    | some e =>
      by_cases hwin : e.resetTime < now
      · have heq := check_reset_allowed store id ep now (Or.inr ⟨e, hs, hwin⟩)
        rw [heq]
        refine ⟨by simp [entryCount]; omega, by simp [entryCount]; omega, ?_, ?_⟩
        · intro hfalse
          simp at hfalse
        · intro e' he' hlt'
          rfl
      · have hecount : e.count ≤ maxRequests ep := by
          rw [hs] at hinv
          exact hinv
        rcases Nat.lt_or_ge e.count (maxRequests ep) with hlt | hge
        · have heq := (check_live_entry store id ep now e hs hwin).2 hlt
          rw [heq]
          refine ⟨by simp [entryCount]; omega, by simp [entryCount]; omega, ?_, ?_⟩
          · intro hfalse
            simp at hfalse
          · intro e' he' hlt'
            cases Option.some.inj he'
            exact absurd hlt' hwin
        · have hmax : e.count = maxRequests ep := by omega
          have heq := (check_live_entry store id ep now e hs hwin).1 hge
          rw [heq]
          refine ⟨by simp [entryCount]; omega, by simp [entryCount]; omega, ?_, ?_⟩
          · intro _
            refine ⟨rfl, by simp; omega, (e.resetTime - now + 999) / 1000, rfl, ?_⟩
            intro hnow
            simp at hnow
            have h1000 : 1000 ≤ e.resetTime - now + 999 := by omega
            exact (Nat.one_le_div_iff (by omega)).mpr h1000
          · intro e' he' hlt'
            cases Option.some.inj he'
            exact absurd hlt' hwin
  exact ⟨hmain.1, hmain.2.1, hmain.2.2.1, hmain.2.2.2,
    fun t0 ts h => fresh_window_bound id ep t0 ts h⟩

theorem rate_limit_behavior_witness :
    (checkRateLimit emptyRateStore "198.51.100.9" Endpoint.chat 5).1.remaining +
      entryCount ((checkRateLimit emptyRateStore "198.51.100.9" Endpoint.chat 5).2
        (rateKey Endpoint.chat "198.51.100.9")) = maxRequests Endpoint.chat :=
  (rate_limit_behavior emptyRateStore "198.51.100.9" Endpoint.chat 5 (by decide)).2.2.1

end DnsDiag
